import Mathlib

/-!
Shallow embedding of the meta-ads-notifier service (src/main.py) and proofs
about its work selection, name enrichment, webhook delivery and outcome
recording logic.

Timestamps are modelled as natural numbers in a single time unit; the SQL
condition `processed_at < NOW() - INTERVAL cooldown` is rendered as
`processed_at + cooldown < now`, the same inequality rearranged so that no
truncated subtraction occurs.  SQL `ORDER BY ... ASC` is modelled with
`List.insertionSort` (a stable sort, like PostgreSQL's sort for this use).
The external HTTP world (Meta name resolution, webhook POST) is passed in as
explicit parameters: a resolver function `String → Option String`
(`none` models the `return None` branches of `get_ad_name_from_meta_api`)
and a `DeliveryResult` (the webhook response status code, or a transport
exception).
-/

namespace MetaAdsNotifier

/-- One row of the source table `launches_v2`, restricted to the columns that
`main.py` selects (lines 101-113). -/
structure Launch where
  launch_key : String
  campaign_id : String
  adset_id : String
  creative_id : String
  ad_id : String
  created_at : Nat
deriving DecidableEq, Repr

/-- One row of the outcome table `launches_v2_processed`
(schema created in `init_processed_table`, lines 53-64). -/
structure OutcomeRow where
  launch_key : String
  processed_at : Nat
  campaign_id : String
  adset_id : String
  creative_id : String
  ad_id : String
  ad_name : String
  webhook_status : String
deriving DecidableEq, Repr

/-- An element of the `ads_with_names` list built in `send_to_webhook`
(lines 375-382): the full resolved name together with the copied ids. -/
structure AdWithName where
  launch_key : String
  ad_name : String
  campaign_id : String
  adset_id : String
  creative_id : String
  ad_id : String
deriving DecidableEq, Repr

/-- An element of the `ads_data` payload list sent to the webhook
(lines 367-372): the cleaned name plus ids, no launch_key. -/
structure PayloadAd where
  ad_name : String
  ad_id : String
  adset_id : String
  campaign_id : String
deriving DecidableEq, Repr

/-- The two persistent tables. -/
structure DBState where
  launches : List Launch
  processed : List OutcomeRow
deriving DecidableEq, Repr

/-- Outcome of the webhook POST in `requests.post`: an HTTP status code, or a
transport/network exception raised inside the `try` block. -/
inductive DeliveryResult where
  | status (code : Nat)
  | exception
deriving DecidableEq, Repr

/-! ### Name cleaning

Translation of the Python expression (lines 213 and 365):
  `ad_name_full.split(" //")[0].strip() if " //" in ad_name_full else ad_name_full`
-/

/-- The delimiter literal `" //"`. -/
def delimChars : List Char := [' ', '/', '/']

/-- Whether `s` starts with `d` (used to locate the delimiter). -/
def startsWithChars : List Char → List Char → Bool
  | _, [] => true
  | [], _ :: _ => false
  | c :: cs, d :: ds => c = d && startsWithChars cs ds

/-- Whether `d` occurs somewhere in `s`: Python `d in s`. -/
def containsSub (d : List Char) : List Char → Bool
  | [] => startsWithChars [] d
  | c :: cs => startsWithChars (c :: cs) d || containsSub d cs

/-- The portion of `s` before the first occurrence of `d` (all of `s` when
there is none): Python `s.split(d)[0]`. -/
def beforeFirst (d : List Char) : List Char → List Char
  | [] => []
  | c :: cs => if startsWithChars (c :: cs) d then [] else c :: beforeFirst d cs

/-- Python `str.strip()`: drop leading and trailing whitespace. -/
def pyStrip (l : List Char) : List Char :=
  ((l.dropWhile Char.isWhitespace).reverse.dropWhile Char.isWhitespace).reverse

/-- The clean-name computation of `send_to_webhook` (line 365) and
`retry_failed_ads` (line 213): portion before the first `" //"`, stripped;
unchanged when the delimiter does not occur. -/
def clean_name (s : String) : String :=
  if containsSub delimChars s.data then ⟨pyStrip (beforeFirst delimChars s.data)⟩ else s

/-- Modelled from the spec's words, for comparison with `clean_name`: the
clean name is "exactly the portion of the name before the first occurrence of
the literal delimiter \" //\"", a name with no delimiter left unchanged.
(No stripping: the spec sentence does not mention it.) -/
def clean_name_spec (s : String) : String :=
  if containsSub delimChars s.data then ⟨beforeFirst delimChars s.data⟩ else s

/-! ### Database operations -/

/-- Rows of an outcome table carrying a given launch_key. -/
def rowsFor (key : String) (t : List OutcomeRow) : List OutcomeRow :=
  t.filter (fun r => r.launch_key == key)

/-- Whether the outcome table has a row for `key` (the LEFT JOIN ...
`WHERE p.launch_key IS NULL` test of `get_unprocessed_ads`). -/
def hasProcessedRow (processed : List OutcomeRow) (key : String) : Bool :=
  processed.any (fun p => p.launch_key == key)

/-- Ordering used by `ORDER BY l.created_at ASC` (line 111). -/
def launchLE (a b : Launch) : Prop := a.created_at ≤ b.created_at

instance : DecidableRel launchLE := fun a b => Nat.decLe a.created_at b.created_at

instance : IsTotal Launch launchLE := ⟨fun a b => Nat.le_total a.created_at b.created_at⟩

instance : IsTrans Launch launchLE := ⟨fun _ _ _ h h2 => Nat.le_trans h h2⟩

/-- Ordering used by `ORDER BY processed_at ASC` (line 184). -/
def rowLE (a b : OutcomeRow) : Prop := a.processed_at ≤ b.processed_at

instance : DecidableRel rowLE := fun a b => Nat.decLe a.processed_at b.processed_at

instance : IsTotal OutcomeRow rowLE := ⟨fun a b => Nat.le_total a.processed_at b.processed_at⟩

instance : IsTrans OutcomeRow rowLE := ⟨fun _ _ _ h h2 => Nat.le_trans h h2⟩

/-- `get_unprocessed_ads` (lines 87-123): launches with no outcome row,
ordered by created_at ascending, limited to `limit` rows. -/
def get_unprocessed_ads (st : DBState) (limit : Nat) : List Launch :=
  (List.insertionSort launchLE
    (st.launches.filter (fun l => !hasProcessedRow st.processed l.launch_key))).take limit

/-- Eligibility test of `get_failed_ads_to_retry` (lines 182-183):
`webhook_status = 'failed' AND processed_at < NOW() - INTERVAL cooldown`. -/
def retryEligible (retryAfter now : Nat) (r : OutcomeRow) : Bool :=
  r.webhook_status == "failed" && decide (r.processed_at + retryAfter < now)

/-- `get_failed_ads_to_retry` (lines 158-196): failed rows past the cooldown,
ordered by processed_at ascending, LIMIT 100. -/
def get_failed_ads_to_retry (processed : List OutcomeRow) (retryAfter now : Nat) :
    List OutcomeRow :=
  (List.insertionSort rowLE (processed.filter (retryEligible retryAfter now))).take 100

/-- The row inserted by `mark_as_processed` for one ad (lines 291-304);
`processed_at` takes the DB default `NOW()`. -/
def mkOutcomeRow (now : Nat) (status : String) (a : AdWithName) : OutcomeRow :=
  { launch_key := a.launch_key
    processed_at := now
    campaign_id := a.campaign_id
    adset_id := a.adset_id
    creative_id := a.creative_id
    ad_id := a.ad_id
    ad_name := a.ad_name
    webhook_status := status }

/-- `INSERT ... ON CONFLICT (launch_key) DO NOTHING` (lines 291-295): the row
is appended only when no row with its launch_key exists. -/
def insertOnConflictDoNothing (t : List OutcomeRow) (row : OutcomeRow) : List OutcomeRow :=
  if t.any (fun r => r.launch_key == row.launch_key) then t else t ++ [row]

/-- The insert loop of `mark_as_processed` (lines 290-304): one
ON-CONFLICT-DO-NOTHING insert per ad, in list order. -/
def markFold (now : Nat) (status : String) : List AdWithName → List OutcomeRow → List OutcomeRow
  | [], t => t
  | a :: rest, t => markFold now status rest (insertOnConflictDoNothing t (mkOutcomeRow now status a))

/-- `mark_as_processed` (lines 274-321): insert each ad into the outcome table
with ON CONFLICT DO NOTHING, then delete all the given launch_keys from
`launches_v2`; no-op on an empty list (line 281). -/
def mark_as_processed (st : DBState) (adsW : List AdWithName) (status : String) (now : Nat) :
    DBState :=
  if adsW.isEmpty then st
  else
    { launches :=
        st.launches.filter (fun l => !(adsW.any (fun a => a.launch_key == l.launch_key)))
      processed := markFold now status adsW st.processed }

/-! ### Webhook sending -/

/-- Resolution loop of `send_to_webhook` (lines 354-361): ads whose name
resolution succeeded, paired with the resolved name; a `none` from the
resolver makes the loop `continue`, dropping the ad. -/
def resolveAds (resolver : String → Option String) (ads : List Launch) :
    List (Launch × String) :=
  ads.filterMap (fun ad => (resolver ad.ad_id).map (fun nm => (ad, nm)))

/-- The `ads_data` payload list (lines 367-374): cleaned names plus ids. -/
def ads_data (resolver : String → Option String) (ads : List Launch) : List PayloadAd :=
  (resolveAds resolver ads).map (fun p =>
    { ad_name := clean_name p.2
      ad_id := p.1.ad_id
      adset_id := p.1.adset_id
      campaign_id := p.1.campaign_id })

/-- The `ads_with_names` list (lines 375-382): full untruncated names plus
copied ids, returned for outcome recording. -/
def ads_with_names (resolver : String → Option String) (ads : List Launch) : List AdWithName :=
  (resolveAds resolver ads).map (fun p =>
    { launch_key := p.1.launch_key
      ad_name := p.2
      campaign_id := p.1.campaign_id
      adset_id := p.1.adset_id
      creative_id := p.1.creative_id
      ad_id := p.1.ad_id })

/-- Whether `send_to_webhook` reaches the `requests.post` call: it does
exactly when `ads_data` is non-empty (lines 384-386 return early otherwise). -/
def webhook_posted (resolver : String → Option String) (ads : List Launch) : Bool :=
  !(ads_data resolver ads).isEmpty

/-- The 2xx success test `200 <= response.status_code < 300` (line 403). -/
def is2xx (c : Nat) : Bool :=
  decide (200 ≤ c) && decide (c < 300)

/-- `send_to_webhook` (lines 327-412): resolve names, drop failures, return
`(False, [])` when nothing resolved; otherwise POST and return the success
flag with the attempted list, or `(False, [])` when the POST raises. -/
def send_to_webhook (resolver : String → Option String) (delivery : DeliveryResult)
    (ads : List Launch) : Bool × List AdWithName :=
  if (ads_data resolver ads).isEmpty then (false, [])
  else
    match delivery with
    | .status c => (is2xx c, ads_with_names resolver ads)
    | .exception => (false, [])

/-- `retry_failed_ads` (lines 199-271): on a 2xx response, UPDATE the given
rows to success with `processed_at = NOW()`; on a non-2xx response or an
exception, return False and leave the table untouched. -/
def retry_failed_ads (st : DBState) (delivery : DeliveryResult) (ads : List OutcomeRow)
    (now : Nat) : Bool × DBState :=
  if ads.isEmpty then (false, st)
  else
    match delivery with
    | .status c =>
        if is2xx c then
          (true,
            { st with
              processed := st.processed.map (fun r =>
                if ads.any (fun a => a.launch_key == r.launch_key) then
                  { r with webhook_status := "success", processed_at := now }
                else r) })
        else (false, st)
    | .exception => (false, st)

/-- The main-phase body of one loop iteration (lines 464-478): select
unprocessed ads, send to webhook, and mark the attempted list as processed
with status success/failed; the table is untouched when the due set or the
attempted list is empty. -/
def cycle_step (resolver : String → Option String) (delivery : DeliveryResult)
    (st : DBState) (limit now : Nat) : DBState :=
  if (get_unprocessed_ads st limit).isEmpty then st
  else
    if ((send_to_webhook resolver delivery (get_unprocessed_ads st limit)).2).isEmpty then st
    else
      mark_as_processed st (send_to_webhook resolver delivery (get_unprocessed_ads st limit)).2
        (if (send_to_webhook resolver delivery (get_unprocessed_ads st limit)).1
          then "success" else "failed") now

/-! ### Process exit behaviour -/

/-- The three mandatory configuration values checked at startup
(lines 423-433). -/
structure Config where
  database_url : Option String
  webhook_url : Option String
  meta_access_token : Option String
deriving DecidableEq, Repr

/-- Where the first process interrupt arrives.  `time.sleep` (line 492) sits
after the `try/except` block, so an interrupt during the sleep is not caught
by the `except KeyboardInterrupt` handler of the loop body (lines 483-485). -/
inductive RunEvent where
  | interruptDuringCycle
  | interruptDuringSleep
deriving DecidableEq, Repr

/-- Exit status of `main` (lines 419-492): 1 when any mandatory configuration
value is missing (`sys.exit(1)`); 1 when `init_processed_table` raises (the
exception propagates out of `main` uncaught, and CPython exits with a nonzero
status, 1, on an unhandled exception); 0 when a KeyboardInterrupt arrives
inside the loop body's `try` (caught, `break`, normal return); nonzero (the
unhandled-exception status 1) when the interrupt arrives during `time.sleep`,
which lies outside the `try`. -/
def main_exit_code (cfg : Config) (schemaInitOk : Bool) (ev : RunEvent) : Nat :=
  if cfg.database_url.isNone then 1
  else if cfg.webhook_url.isNone then 1
  else if cfg.meta_access_token.isNone then 1
  else if !schemaInitOk then 1
  else
    match ev with
    | .interruptDuringCycle => 0
    | .interruptDuringSleep => 1

/-! ### Helper lemmas -/

theorem insertOnConflict_of_fresh {t : List OutcomeRow} {row : OutcomeRow}
    (h : ∀ r ∈ t, (r.launch_key == row.launch_key) = false) :
    insertOnConflictDoNothing t row = t ++ [row] := by
  unfold insertOnConflictDoNothing
  rw [if_neg]
  intro hc
  obtain ⟨r, hr, hb⟩ := List.any_eq_true.mp hc
  rw [h r hr] at hb
  exact Bool.false_ne_true hb

theorem mem_insertOnConflictDoNothing {t : List OutcomeRow} {row r : OutcomeRow}
    (h : r ∈ t) : r ∈ insertOnConflictDoNothing t row := by
  unfold insertOnConflictDoNothing
  split
  · exact h
  · exact List.mem_append_left _ h

theorem mem_markFold {now : Nat} {status : String} :
    ∀ (adsW : List AdWithName) (t : List OutcomeRow) {r : OutcomeRow},
      r ∈ t → r ∈ markFold now status adsW t
  | [], _, _, h => h
  | _ :: rest, _, _, h => mem_markFold rest _ (mem_insertOnConflictDoNothing h)

theorem exists_key_markFold {now : Nat} {status : String} :
    ∀ (adsW : List AdWithName) (t : List OutcomeRow) (a : AdWithName), a ∈ adsW →
      ∃ row ∈ markFold now status adsW t, row.launch_key = a.launch_key := by
  intro adsW
  induction adsW with
  | nil => intro t a ha; cases ha
  | cons x rest ih =>
      intro t a ha
      rcases List.mem_cons.mp ha with hax | harest
      · subst hax
        by_cases hc : t.any (fun r => r.launch_key == (mkOutcomeRow now status a).launch_key) = true
        · obtain ⟨r, hr, hb⟩ := List.any_eq_true.mp hc
          refine ⟨r, ?_, beq_iff_eq.mp hb⟩
          show r ∈ markFold now status (a :: rest) t
          unfold markFold insertOnConflictDoNothing
          rw [if_pos hc]
          exact mem_markFold rest t hr
        · refine ⟨mkOutcomeRow now status a, ?_, rfl⟩
          show mkOutcomeRow now status a ∈ markFold now status (a :: rest) t
          unfold markFold insertOnConflictDoNothing
          rw [if_neg hc]
          exact mem_markFold rest _ (List.mem_append_right _ (List.mem_singleton.mpr rfl))
      · exact ih _ a harest

theorem exists_row_markFold_fresh {now : Nat} {status : String} :
    ∀ (adsW : List AdWithName) (t : List OutcomeRow) (a : AdWithName), a ∈ adsW →
      (∀ r ∈ t, (r.launch_key == a.launch_key) = false) →
      ∃ row ∈ markFold now status adsW t,
        row.launch_key = a.launch_key ∧ row.webhook_status = status ∧ row.processed_at = now := by
  intro adsW
  induction adsW with
  | nil => intro t a ha _; cases ha
  | cons x rest ih =>
      intro t a ha hfresh
      by_cases hx : (x.launch_key == a.launch_key) = true
      · have hxa : x.launch_key = a.launch_key := beq_iff_eq.mp hx
        have hnew : insertOnConflictDoNothing t (mkOutcomeRow now status x)
            = t ++ [mkOutcomeRow now status x] := by
          refine insertOnConflict_of_fresh ?_
          intro r hr
          show (r.launch_key == x.launch_key) = false
          rw [hxa]
          exact hfresh r hr
        refine ⟨mkOutcomeRow now status x, ?_, hxa, rfl, rfl⟩
        show mkOutcomeRow now status x ∈ markFold now status (x :: rest) t
        unfold markFold
        rw [hnew]
        exact mem_markFold rest _ (List.mem_append_right _ (List.mem_singleton.mpr rfl))
      · have hax : a ∈ rest := by
          rcases List.mem_cons.mp ha with hax | h
          · exfalso; rw [hax] at hx; exact hx (beq_iff_eq.mpr rfl)
          · exact h
        have hfresh2 : ∀ r ∈ insertOnConflictDoNothing t (mkOutcomeRow now status x),
            (r.launch_key == a.launch_key) = false := by
          intro r hr
          unfold insertOnConflictDoNothing at hr
          split at hr
          · exact hfresh r hr
          · rcases List.mem_append.mp hr with h1 | h2
            · exact hfresh r h1
            · rw [List.mem_singleton.mp h2]
              exact Bool.eq_false_iff.mpr (fun hc => hx hc)
        exact ih _ a hax hfresh2

theorem rowsFor_markFold_frame {now : Nat} {status : String} {key : String} :
    ∀ (adsW : List AdWithName) (t : List OutcomeRow),
      (∀ a ∈ adsW, (a.launch_key == key) = false) →
      rowsFor key (markFold now status adsW t) = rowsFor key t := by
  intro adsW
  induction adsW with
  | nil => intro t _; rfl
  | cons x rest ih =>
      intro t hkeys
      show rowsFor key (markFold now status rest (insertOnConflictDoNothing t (mkOutcomeRow now status x)))
          = rowsFor key t
      rw [ih _ (fun a ha => hkeys a (List.mem_cons_of_mem x ha))]
      unfold insertOnConflictDoNothing
      split
      · rfl
      · unfold rowsFor
        rw [List.filter_append]
        have : List.filter (fun r => r.launch_key == key) [mkOutcomeRow now status x] = [] := by
          simp only [List.filter, mkOutcomeRow]
          rw [hkeys x (List.mem_cons_self x rest)]
        rw [this, List.append_nil]

theorem mem_get_unprocessed {st : DBState} {limit : Nat} {ad : Launch}
    (h : ad ∈ get_unprocessed_ads st limit) :
    ad ∈ st.launches ∧ hasProcessedRow st.processed ad.launch_key = false := by
  unfold get_unprocessed_ads at h
  have h1 := List.mem_of_mem_take h
  rw [List.mem_insertionSort] at h1
  have h2 := List.mem_filter.mp h1
  exact ⟨h2.1, by simpa using h2.2⟩

theorem mem_resolveAds {resolver : String → Option String} {ads : List Launch}
    {p : Launch × String} (h : p ∈ resolveAds resolver ads) :
    p.1 ∈ ads ∧ resolver p.1.ad_id = some p.2 := by
  unfold resolveAds at h
  obtain ⟨ad, had, heq⟩ := List.mem_filterMap.mp h
  obtain ⟨nm, hres, hp⟩ := Option.map_eq_some'.mp heq
  rw [← hp]
  exact ⟨had, hres⟩

theorem mem_ads_with_names {resolver : String → Option String} {ads : List Launch}
    {a : AdWithName} (h : a ∈ ads_with_names resolver ads) :
    ∃ ad ∈ ads, resolver ad.ad_id = some a.ad_name ∧ a.launch_key = ad.launch_key := by
  unfold ads_with_names at h
  obtain ⟨p, hp, ha⟩ := List.mem_map.mp h
  obtain ⟨hmem, hres⟩ := mem_resolveAds hp
  refine ⟨p.1, hmem, ?_, ?_⟩
  · rw [← ha]; exact hres
  · rw [← ha]

theorem nodup_keys_get_unprocessed {st : DBState} {limit : Nat}
    (hnd : (st.launches.map (fun l => l.launch_key)).Nodup) :
    ((get_unprocessed_ads st limit).map (fun l => l.launch_key)).Nodup := by
  unfold get_unprocessed_ads
  have h1 : ((st.launches.filter
      (fun l => !hasProcessedRow st.processed l.launch_key)).map (fun l => l.launch_key)).Nodup :=
    hnd.sublist ((List.filter_sublist _).map _)
  have h2 : ((List.insertionSort launchLE (st.launches.filter
      (fun l => !hasProcessedRow st.processed l.launch_key))).map (fun l => l.launch_key)).Nodup :=
    (((List.perm_insertionSort launchLE _).map _).nodup_iff).mpr h1
  exact h2.sublist ((List.take_sublist _ _).map _)

theorem send_snd_cases (resolver : String → Option String) (delivery : DeliveryResult)
    (ads : List Launch) :
    (send_to_webhook resolver delivery ads).2 = []
    ∨ (send_to_webhook resolver delivery ads).2 = ads_with_names resolver ads := by
  unfold send_to_webhook
  split
  · exact Or.inl rfl
  · match delivery with
    | .status c => exact Or.inr rfl
    | .exception => exact Or.inl rfl

theorem cycle_step_of_attempted_nil {resolver : String → Option String}
    {delivery : DeliveryResult} {st : DBState} {limit now : Nat}
    (h : (send_to_webhook resolver delivery (get_unprocessed_ads st limit)).2 = []) :
    cycle_step resolver delivery st limit now = st := by
  unfold cycle_step
  split
  · rfl
  · rw [if_pos]
    rw [h]
    rfl

theorem cycle_step_eq_mark {resolver : String → Option String}
    {delivery : DeliveryResult} {st : DBState} {limit now : Nat}
    (hne : (get_unprocessed_ads st limit).isEmpty = false)
    (ha : ((send_to_webhook resolver delivery (get_unprocessed_ads st limit)).2).isEmpty = false) :
    cycle_step resolver delivery st limit now
      = mark_as_processed st (send_to_webhook resolver delivery (get_unprocessed_ads st limit)).2
          (if (send_to_webhook resolver delivery (get_unprocessed_ads st limit)).1
            then "success" else "failed") now := by
  unfold cycle_step
  rw [if_neg (by simp [hne]), if_neg (by simp [ha])]

/-! ### Claim C1 -/

/-- C1 (corrected): recording an outcome twice for the same launch_key does
converge to a single row with no duplicate and no error on conflict, but the
retained row carries the FIRST call's processed_at, webhook_status and copied
fields — the insert uses ON CONFLICT DO NOTHING, so the earliest write wins,
not the latest. -/
theorem C1_first_write_wins (st : DBState) (a b : AdWithName) (s1 s2 : String) (t1 t2 : Nat)
    (hkey : b.launch_key = a.launch_key)
    (hnew : hasProcessedRow st.processed a.launch_key = false) :
    rowsFor a.launch_key
        (mark_as_processed (mark_as_processed st [a] s1 t1) [b] s2 t2).processed
      = [mkOutcomeRow t1 s1 a] := by
  unfold hasProcessedRow at hnew
  have hall : ∀ r ∈ st.processed, (r.launch_key == a.launch_key) = false := by
    intro r hr
    exact Bool.eq_false_iff.mpr (List.any_eq_false.mp hnew r hr)
  have h1 : (mark_as_processed st [a] s1 t1).processed
      = st.processed ++ [mkOutcomeRow t1 s1 a] := by
    show insertOnConflictDoNothing st.processed (mkOutcomeRow t1 s1 a) = _
    exact insertOnConflict_of_fresh (fun r hr => hall r hr)
  have h2 : (mark_as_processed (mark_as_processed st [a] s1 t1) [b] s2 t2).processed
      = st.processed ++ [mkOutcomeRow t1 s1 a] := by
    show insertOnConflictDoNothing (mark_as_processed st [a] s1 t1).processed
        (mkOutcomeRow t2 s2 b) = _
    rw [h1]
    unfold insertOnConflictDoNothing
    rw [if_pos]
    refine List.any_eq_true.mpr ⟨mkOutcomeRow t1 s1 a,
      List.mem_append_right _ (List.mem_singleton.mpr rfl), ?_⟩
    show (a.launch_key == b.launch_key) = true
    rw [hkey]
    exact beq_self_eq_true _
  rw [h2]
  unfold rowsFor
  rw [List.filter_append]
  have hf1 : st.processed.filter (fun r => r.launch_key == a.launch_key) = [] :=
    List.filter_eq_nil_iff.mpr (fun r hr => by rw [hall r hr]; exact Bool.false_ne_true)
  have hf2 : [mkOutcomeRow t1 s1 a].filter (fun r => r.launch_key == a.launch_key)
      = [mkOutcomeRow t1 s1 a] := by
    rw [List.filter_cons]
    rw [if_pos]
    · rfl
    · exact beq_self_eq_true _
  rw [hf1, hf2, List.nil_append]

theorem C1_first_write_wins_witness :
    rowsFor "k"
        (mark_as_processed
          (mark_as_processed ⟨[], []⟩ [⟨"k", "n1", "c1", "s1", "r1", "i1"⟩] "success" 1)
          [⟨"k", "n2", "c2", "s2", "r2", "i2"⟩] "failed" 2).processed
      = [mkOutcomeRow 1 "success" ⟨"k", "n1", "c1", "s1", "r1", "i1"⟩] :=
  C1_first_write_wins ⟨[], []⟩ ⟨"k", "n1", "c1", "s1", "r1", "i1"⟩
    ⟨"k", "n2", "c2", "s2", "r2", "i2"⟩ "success" "failed" 1 2 rfl rfl

/-- C1 counterexample to "latest write wins": two calls for the same
launch_key with different statuses and timestamps leave the first call's row
in place; its status is the first status, not the latest, and its timestamp is
the first timestamp, not the latest. -/
theorem C1_counterexample :
    rowsFor "k"
        (mark_as_processed
          (mark_as_processed ⟨[], []⟩ [⟨"k", "n", "c", "s", "r", "i"⟩] "success" 1)
          [⟨"k", "n", "c", "s", "r", "i"⟩] "failed" 2).processed
      = [mkOutcomeRow 1 "success" ⟨"k", "n", "c", "s", "r", "i"⟩]
    ∧ (mkOutcomeRow 1 "success" ⟨"k", "n", "c", "s", "r", "i"⟩).webhook_status ≠ "failed"
    ∧ (mkOutcomeRow 1 "success" ⟨"k", "n", "c", "s", "r", "i"⟩).processed_at ≠ 2 := by
  refine ⟨?_, ?_, ?_⟩ <;> decide

/-! ### Claim C2 -/

/-- C2 (corrected): a failed row is excluded from the retry selection at every
instant up to and INCLUDING processed_at + cooldown (the SQL comparison is
strict), and included strictly after that instant provided at most 100 rows
are then eligible (the query carries LIMIT 100). -/
theorem C2_cooldown (processed : List OutcomeRow) (retryAfter now : Nat) (r : OutcomeRow)
    (hr : r ∈ processed) (hf : r.webhook_status = "failed") :
    (now ≤ r.processed_at + retryAfter → r ∉ get_failed_ads_to_retry processed retryAfter now)
    ∧ (r.processed_at + retryAfter < now →
        (processed.filter (retryEligible retryAfter now)).length ≤ 100 →
        r ∈ get_failed_ads_to_retry processed retryAfter now) := by
  constructor
  · intro hle hmem
    unfold get_failed_ads_to_retry at hmem
    have h1 := List.mem_of_mem_take hmem
    rw [List.mem_insertionSort] at h1
    have h2 := (List.mem_filter.mp h1).2
    unfold retryEligible at h2
    have h3 := (Bool.and_eq_true _ _).mp h2
    have hlt : r.processed_at + retryAfter < now := of_decide_eq_true h3.2
    omega
  · intro hlt hlen
    have hlen2 : (List.insertionSort rowLE
        (processed.filter (retryEligible retryAfter now))).length ≤ 100 := by
      rw [(List.perm_insertionSort rowLE _).length_eq]
      exact hlen
    unfold get_failed_ads_to_retry
    rw [List.take_of_length_le hlen2, List.mem_insertionSort]
    refine List.mem_filter.mpr ⟨hr, ?_⟩
    unfold retryEligible
    rw [hf]
    simp [hlt]

theorem C2_cooldown_witness :
    (⟨"k", 0, "c", "s", "r", "i", "n", "failed"⟩ : OutcomeRow)
      ∈ get_failed_ads_to_retry [⟨"k", 0, "c", "s", "r", "i", "n", "failed"⟩] 5 6 :=
  (C2_cooldown [⟨"k", 0, "c", "s", "r", "i", "n", "failed"⟩] 5 6
      ⟨"k", 0, "c", "s", "r", "i", "n", "failed"⟩
      (List.mem_singleton.mpr rfl) rfl).2 (by decide) (by decide)

/-- C2 counterexample to inclusion "at" the instant T + cooldown: a row that
failed at time 0 with a 5-unit cooldown is still not selected at time 5. -/
theorem C2_counterexample :
    (⟨"k", 0, "c", "s", "r", "i", "n", "failed"⟩ : OutcomeRow).webhook_status = "failed"
    ∧ get_failed_ads_to_retry [⟨"k", 0, "c", "s", "r", "i", "n", "failed"⟩] 5 5 = [] := by
  refine ⟨?_, ?_⟩ <;> decide

/-! ### Claim C3 -/

def c3launch : Launch := ⟨"a", "c", "s", "r", "1", 0⟩

def c3st : DBState := ⟨[c3launch], []⟩

def c3res : String → Option String := fun i => if i == "1" then some "N" else none

def c3attempted : AdWithName := ⟨"a", "N", "c", "s", "r", "1"⟩

/-- C3 counterexample: a batch whose only record resolves and is POSTed
(payload non-empty) but whose delivery raises a transport exception is NOT
recorded as failed — `send_to_webhook` returns an empty attempted list on an
exception, so `mark_as_processed` is never called and the outcome table stays
empty. -/
theorem C3_counterexample :
    ads_data c3res (get_unprocessed_ads c3st 100) ≠ []
    ∧ send_to_webhook c3res .exception (get_unprocessed_ads c3st 100) = (false, [])
    ∧ (cycle_step c3res .exception c3st 100 7).processed = [] := by
  refine ⟨?_, ?_, ?_⟩ <;> decide

/-- C3 (corrected): only a NON-2XX RESPONSE marks the attempted batch failed
with the current timestamp; a transport exception yields an empty attempted
list and records nothing, and a failed retry-phase delivery leaves the outcome
rows untouched (no refreshed timestamp). -/
theorem C3_amended :
    (∀ (resolver : String → Option String) (ads : List Launch),
        send_to_webhook resolver .exception ads = (false, []))
    ∧ (∀ (resolver : String → Option String) (st : DBState) (limit now c : Nat),
        is2xx c = false →
        ∀ a ∈ (send_to_webhook resolver (.status c) (get_unprocessed_ads st limit)).2,
          ∃ row ∈ (cycle_step resolver (.status c) st limit now).processed,
            row.launch_key = a.launch_key ∧ row.webhook_status = "failed"
              ∧ row.processed_at = now)
    ∧ (∀ (st : DBState) (ads : List OutcomeRow) (now c : Nat),
        is2xx c = false → (retry_failed_ads st (.status c) ads now).2 = st)
    ∧ (∀ (st : DBState) (ads : List OutcomeRow) (now : Nat),
        (retry_failed_ads st .exception ads now).2 = st) := by
  refine ⟨?_, ?_, ?_, ?_⟩
  · intro resolver ads
    unfold send_to_webhook
    split <;> rfl
  · intro resolver st limit now c h2xx a ha
    have hfresh : ∀ r ∈ st.processed, (r.launch_key == a.launch_key) = false := by
      rcases send_snd_cases resolver (.status c) (get_unprocessed_ads st limit) with h0 | h0
      · rw [h0] at ha; cases ha
      · rw [h0] at ha
        obtain ⟨ad, had, _, hk⟩ := mem_ads_with_names ha
        have hproc := (mem_get_unprocessed had).2
        unfold hasProcessedRow at hproc
        intro r hr
        rw [hk]
        exact Bool.eq_false_iff.mpr (List.any_eq_false.mp hproc r hr)
    have hneA : ((send_to_webhook resolver (.status c)
        (get_unprocessed_ads st limit)).2).isEmpty = false := by
      cases hA : ((send_to_webhook resolver (.status c)
          (get_unprocessed_ads st limit)).2).isEmpty
      · rfl
      · rw [List.isEmpty_iff.mp hA] at ha; cases ha
    have hneAds : (get_unprocessed_ads st limit).isEmpty = false := by
      cases hE : (get_unprocessed_ads st limit).isEmpty
      · rfl
      · exfalso
        rcases send_snd_cases resolver (.status c) (get_unprocessed_ads st limit) with h0 | h0
        · rw [h0] at ha; cases ha
        · rw [h0] at ha
          obtain ⟨ad, had, _, _⟩ := mem_ads_with_names ha
          rw [List.isEmpty_iff.mp hE] at had
          cases had
    rw [cycle_step_eq_mark hneAds hneA]
    have hflag : (send_to_webhook resolver (.status c)
        (get_unprocessed_ads st limit)).1 = false := by
      unfold send_to_webhook
      split
      · rfl
      · exact h2xx
    rw [hflag]
    have hmark : (mark_as_processed st
        (send_to_webhook resolver (.status c) (get_unprocessed_ads st limit)).2
        (if false = true then "success" else "failed") now).processed
        = markFold now "failed"
            (send_to_webhook resolver (.status c) (get_unprocessed_ads st limit)).2
            st.processed := by
      unfold mark_as_processed
      rw [if_neg (by simp [hneA])]
      rfl
    rw [hmark]
    exact exists_row_markFold_fresh _ st.processed a ha hfresh
  · intro st ads now c h
    unfold retry_failed_ads
    split
    · rfl
    · simp [h]
  · intro st ads now
    unfold retry_failed_ads
    split <;> rfl

theorem C3_amended_witness :
    ∃ row ∈ (cycle_step c3res (.status 500) c3st 100 7).processed,
      row.launch_key = c3attempted.launch_key ∧ row.webhook_status = "failed"
        ∧ row.processed_at = 7 :=
  C3_amended.2.1 c3res c3st 100 7 500 (by decide) c3attempted (by decide)

/-! ### Claim C4 -/

def c4old : Launch := ⟨"a", "c", "s", "r", "1", 1⟩

def c4new : Launch := ⟨"b", "c", "s", "r", "2", 2⟩

def c4st : DBState := ⟨[c4new, c4old], []⟩

/-- C4 counterexample to "newest launches first": with two never-attempted
launches created at times 1 and 2, the work selector returns the one created
at time 1 FIRST — `get_unprocessed_ads` orders by `created_at ASC`, i.e.
oldest-first, not newest-first. -/
theorem C4_counterexample :
    (get_unprocessed_ads c4st 100).map (fun l => l.created_at) = [1, 2]
    ∧ ([1, 2] : List Nat) ≠ [2, 1] := by
  refine ⟨?_, ?_⟩ <;> decide

/-- C4 (corrected): for every state of the two tables, new/never-attempted
launches are returned ordered OLDEST-first (`created_at ASC`), and failed
retries are returned oldest-failure-first (`processed_at ASC`). -/
theorem C4_ordering (st : DBState) (limit : Nat) (processed : List OutcomeRow)
    (retryAfter now : Nat) :
    List.Sorted launchLE (get_unprocessed_ads st limit)
    ∧ List.Sorted rowLE (get_failed_ads_to_retry processed retryAfter now) := by
  constructor
  · unfold get_unprocessed_ads
    exact (List.sorted_insertionSort launchLE _).sublist (List.take_sublist _ _)
  · unfold get_failed_ads_to_retry
    exact (List.sorted_insertionSort rowLE _).sublist (List.take_sublist _ _)

/-! ### Claim C5 -/

def c5launch : Launch := ⟨"a", "c", "s", "r", "1", 0⟩

def c5st : DBState := ⟨[c5launch], []⟩

def c5res : String → Option String := fun _ => none

/-- C5 (confirmed): a record of the due batch whose name resolution fails is
excluded from the webhook payload and from the returned attempted list, no
outcome row of its launch_key is created or modified by the cycle, and the
record is still in the source table afterwards (eligible next cycle). -/
theorem C5_resolution_failure_frame (resolver : String → Option String)
    (delivery : DeliveryResult) (st : DBState) (limit now : Nat) (ad : Launch)
    (hnd : (st.launches.map (fun l => l.launch_key)).Nodup)
    (hmem : ad ∈ get_unprocessed_ads st limit)
    (hfail : resolver ad.ad_id = none) :
    ad ∉ (resolveAds resolver (get_unprocessed_ads st limit)).map Prod.fst
    ∧ ad.launch_key ∉
        ((send_to_webhook resolver delivery (get_unprocessed_ads st limit)).2.map
          (fun a => a.launch_key))
    ∧ rowsFor ad.launch_key (cycle_step resolver delivery st limit now).processed
        = rowsFor ad.launch_key st.processed
    ∧ ad ∈ (cycle_step resolver delivery st limit now).launches := by
  have hnotfst : ad ∉ (resolveAds resolver (get_unprocessed_ads st limit)).map Prod.fst := by
    intro hc
    obtain ⟨p, hp, hfst⟩ := List.mem_map.mp hc
    have h2 := (mem_resolveAds hp).2
    rw [hfst, hfail] at h2
    cases h2
  have hkeys : ad.launch_key ∉
      ((send_to_webhook resolver delivery (get_unprocessed_ads st limit)).2.map
        (fun a => a.launch_key)) := by
    intro hc
    rcases send_snd_cases resolver delivery (get_unprocessed_ads st limit) with h0 | h0
    · rw [h0] at hc; cases hc
    · rw [h0] at hc
      obtain ⟨x, hx, hxkey⟩ := List.mem_map.mp hc
      obtain ⟨ad2, had2, hres2, hk2⟩ := mem_ads_with_names hx
      have hkk : ad2.launch_key = ad.launch_key := by rw [← hk2, hxkey]
      have hsame : ad2 = ad :=
        List.inj_on_of_nodup_map (nodup_keys_get_unprocessed hnd) had2 hmem hkk
      rw [hsame, hfail] at hres2
      cases hres2
  have hkeyfalse : ∀ x ∈ (send_to_webhook resolver delivery (get_unprocessed_ads st limit)).2,
      (x.launch_key == ad.launch_key) = false := by
    intro x hx
    refine Bool.eq_false_iff.mpr (fun hc => ?_)
    exact hkeys (List.mem_map.mpr ⟨x, hx, beq_iff_eq.mp hc⟩)
  have hinlaunches : ad ∈ st.launches := (mem_get_unprocessed hmem).1
  refine ⟨hnotfst, hkeys, ?_, ?_⟩
  · by_cases hE : (get_unprocessed_ads st limit).isEmpty = true
    · unfold cycle_step
      rw [if_pos hE]
    · by_cases hA : ((send_to_webhook resolver delivery
          (get_unprocessed_ads st limit)).2).isEmpty = true
      · rw [cycle_step_of_attempted_nil (List.isEmpty_iff.mp hA)]
      · rw [cycle_step_eq_mark (Bool.eq_false_iff.mpr hE) (Bool.eq_false_iff.mpr hA)]
        have hmark : (mark_as_processed st
            (send_to_webhook resolver delivery (get_unprocessed_ads st limit)).2
            (if (send_to_webhook resolver delivery (get_unprocessed_ads st limit)).1
              then "success" else "failed") now).processed
            = markFold now
                (if (send_to_webhook resolver delivery (get_unprocessed_ads st limit)).1
                  then "success" else "failed")
                (send_to_webhook resolver delivery (get_unprocessed_ads st limit)).2
                st.processed := by
          unfold mark_as_processed
          rw [if_neg hA]
        rw [hmark]
        exact rowsFor_markFold_frame _ st.processed hkeyfalse
  · by_cases hE : (get_unprocessed_ads st limit).isEmpty = true
    · unfold cycle_step
      rw [if_pos hE]
      exact hinlaunches
    · by_cases hA : ((send_to_webhook resolver delivery
          (get_unprocessed_ads st limit)).2).isEmpty = true
      · rw [cycle_step_of_attempted_nil (List.isEmpty_iff.mp hA)]
        exact hinlaunches
      · rw [cycle_step_eq_mark (Bool.eq_false_iff.mpr hE) (Bool.eq_false_iff.mpr hA)]
        have hlaunches : (mark_as_processed st
            (send_to_webhook resolver delivery (get_unprocessed_ads st limit)).2
            (if (send_to_webhook resolver delivery (get_unprocessed_ads st limit)).1
              then "success" else "failed") now).launches
            = st.launches.filter (fun l =>
                !((send_to_webhook resolver delivery (get_unprocessed_ads st limit)).2.any
                  (fun a => a.launch_key == l.launch_key))) := by
          unfold mark_as_processed
          rw [if_neg hA]
        rw [hlaunches]
        refine List.mem_filter.mpr ⟨hinlaunches, ?_⟩
        have hany : ((send_to_webhook resolver delivery (get_unprocessed_ads st limit)).2.any
            (fun a => a.launch_key == ad.launch_key)) = false :=
          List.any_eq_false.mpr (fun x hx => by rw [hkeyfalse x hx]; exact Bool.false_ne_true)
        rw [hany]
        rfl

theorem C5_witness :
    c5launch ∉ (resolveAds c5res (get_unprocessed_ads c5st 100)).map Prod.fst
    ∧ c5launch.launch_key ∉
        ((send_to_webhook c5res (.status 200) (get_unprocessed_ads c5st 100)).2.map
          (fun a => a.launch_key))
    ∧ rowsFor c5launch.launch_key (cycle_step c5res (.status 200) c5st 100 3).processed
        = rowsFor c5launch.launch_key c5st.processed
    ∧ c5launch ∈ (cycle_step c5res (.status 200) c5st 100 3).launches :=
  C5_resolution_failure_frame c5res (.status 200) c5st 100 3 c5launch
    (by decide) (by decide) rfl

/-! ### Claim C6 -/

def c6launch : Launch := ⟨"a", "c", "s", "r", "1", 0⟩

def c6st : DBState := ⟨[c6launch], []⟩

def c6res : String → Option String := fun i => if i == "1" then some "X" else none

/-- C6 (confirmed): with a due set of exactly the launch "a" with ad_id "1",
a resolver answering "X" and an HTTP 200 delivery, the cycle leaves exactly
one outcome row for "a" with webhook_status success and the untruncated
resolved name "X". -/
theorem C6_success_scenario :
    get_unprocessed_ads c6st 100 = [c6launch]
    ∧ rowsFor "a" (cycle_step c6res (.status 200) c6st 100 5).processed
        = [⟨"a", 5, "c", "s", "r", "1", "X", "success"⟩] := by
  refine ⟨?_, ?_⟩ <;> decide

/-! ### Claim C7 -/

/-- C7 counterexample to "exactly the portion before the first \" //\"": for
the name "x  // y" (two spaces before the slashes) the portion before the
first occurrence of " //" is "x " with a trailing space, but the code also
strips surrounding whitespace and produces "x". -/
theorem C7_counterexample :
    clean_name "x  // y" = "x"
    ∧ clean_name_spec "x  // y" = "x "
    ∧ ("x" : String) ≠ "x " := by
  refine ⟨?_, ?_, ?_⟩ <;> decide

/-- C7 (corrected): the clean name used in the payload is the portion of the
resolved name before the first occurrence of " //" WITH LEADING AND TRAILING
WHITESPACE STRIPPED (Python `.strip()`); a name containing no " //" is left
completely unchanged; the documented example cleans to "3815_0_Rosa Glanz";
and the name stored for the outcome row is the full untruncated one. -/
theorem C7_amended :
    clean_name "3815_0_Rosa Glanz // Video // Mehr dazu // LP260" = "3815_0_Rosa Glanz"
    ∧ (∀ s : String, containsSub delimChars s.data = false → clean_name s = s)
    ∧ (∀ s : String, containsSub delimChars s.data = true →
        (clean_name s).data = pyStrip ((clean_name_spec s).data))
    ∧ (∀ (resolver : String → Option String) (ads : List Launch),
        (ads_with_names resolver ads).map (fun a => a.ad_name)
          = (resolveAds resolver ads).map (fun p => p.2)) := by
  refine ⟨by decide, ?_, ?_, ?_⟩
  · intro s h
    unfold clean_name
    rw [if_neg (by simp [h])]
  · intro s h
    unfold clean_name clean_name_spec
    rw [if_pos h, if_pos h]
  · intro resolver ads
    unfold ads_with_names
    rw [List.map_map]
    rfl

theorem C7_amended_witness :
    clean_name "plain name" = "plain name"
    ∧ (clean_name "x  // y").data = pyStrip ((clean_name_spec "x  // y").data) :=
  ⟨C7_amended.2.1 "plain name" (by decide), C7_amended.2.2.1 "x  // y" (by decide)⟩

/-! ### Claim C8 -/

def c8cfg : Config := ⟨some "db", some "wh", some "tok"⟩

/-- C8: the exit-code model at the failing input. Missing configuration and a
failed schema initialization do exit with status 1, and an interrupt caught
inside the cycle body does exit with status 0; but an interrupt arriving
during the inter-cycle `time.sleep` — which sits OUTSIDE the
`try/except KeyboardInterrupt` — propagates uncaught and the process exits
nonzero (1), not 0 as the claim states. -/
theorem C8_exit_codes :
    main_exit_code c8cfg true .interruptDuringSleep = 1
    ∧ main_exit_code c8cfg true .interruptDuringCycle = 0
    ∧ main_exit_code ⟨none, some "wh", some "tok"⟩ true .interruptDuringCycle = 1
    ∧ main_exit_code ⟨some "db", none, some "tok"⟩ true .interruptDuringCycle = 1
    ∧ main_exit_code ⟨some "db", some "wh", none⟩ true .interruptDuringCycle = 1
    ∧ main_exit_code c8cfg false .interruptDuringCycle = 1 := by
  refine ⟨?_, ?_, ?_, ?_, ?_, ?_⟩ <;> decide

/-! ### Claim C9 -/

/-- C9 (confirmed): `mark_as_processed` deletes every given launch_key from
the source table regardless of the recorded status, and afterwards the
outcome table holds a row for each of those keys — the launches survive only
in the outcome table. -/
theorem C9_deletes_source (st : DBState) (adsW : List AdWithName) (status : String)
    (now : Nat) (a : AdWithName) (ha : a ∈ adsW) :
    (∀ l ∈ (mark_as_processed st adsW status now).launches, l.launch_key ≠ a.launch_key)
    ∧ ∃ row ∈ (mark_as_processed st adsW status now).processed,
        row.launch_key = a.launch_key := by
  have hne : ¬(adsW.isEmpty = true) := by
    cases adsW
    · cases ha
    · simp
  constructor
  · intro l hl hk
    unfold mark_as_processed at hl
    rw [if_neg hne] at hl
    have h2 := (List.mem_filter.mp hl).2
    have hany : adsW.any (fun x => x.launch_key == l.launch_key) = true :=
      List.any_eq_true.mpr ⟨a, ha, beq_iff_eq.mpr hk.symm⟩
    rw [hany] at h2
    cases h2
  · have hproc : (mark_as_processed st adsW status now).processed
        = markFold now status adsW st.processed := by
      unfold mark_as_processed
      rw [if_neg hne]
    rw [hproc]
    exact exists_key_markFold adsW st.processed a ha

def c9ad : AdWithName := ⟨"k", "n", "c", "s", "r", "i"⟩

def c9st : DBState := ⟨[⟨"k", "c", "s", "r", "i", 0⟩], []⟩

theorem C9_witness :
    (∀ l ∈ (mark_as_processed c9st [c9ad] "failed" 3).launches,
        l.launch_key ≠ c9ad.launch_key)
    ∧ ∃ row ∈ (mark_as_processed c9st [c9ad] "failed" 3).processed,
        row.launch_key = c9ad.launch_key :=
  C9_deletes_source c9st [c9ad] "failed" 3 c9ad (List.mem_singleton.mpr rfl)

/-! ### Claim C10 -/

/-- C10 (confirmed): when name resolution fails for every record of a
non-empty due batch, no webhook POST is made (the early return fires before
`requests.post`), `send_to_webhook` returns failure with an empty attempted
list, and the outcome table is unchanged by the cycle. -/
theorem C10_all_resolution_failed (resolver : String → Option String)
    (delivery : DeliveryResult) (st : DBState) (limit now : Nat)
    (hne : get_unprocessed_ads st limit ≠ [])
    (hall : ∀ ad ∈ get_unprocessed_ads st limit, resolver ad.ad_id = none) :
    webhook_posted resolver (get_unprocessed_ads st limit) = false
    ∧ send_to_webhook resolver delivery (get_unprocessed_ads st limit) = (false, [])
    ∧ (cycle_step resolver delivery st limit now).processed = st.processed := by
  have hres : resolveAds resolver (get_unprocessed_ads st limit) = [] := by
    unfold resolveAds
    rw [List.filterMap_eq_nil_iff]
    intro ad had
    rw [hall ad had]
    rfl
  have hdata : ads_data resolver (get_unprocessed_ads st limit) = [] := by
    unfold ads_data
    rw [hres]
    rfl
  have hsend : send_to_webhook resolver delivery (get_unprocessed_ads st limit)
      = (false, []) := by
    unfold send_to_webhook
    rw [if_pos (by rw [hdata]; rfl)]
  refine ⟨?_, hsend, ?_⟩
  · unfold webhook_posted
    rw [hdata]
    rfl
  · rw [cycle_step_of_attempted_nil (by rw [hsend])]

def c10launch : Launch := ⟨"a", "c", "s", "r", "1", 0⟩

def c10st : DBState := ⟨[c10launch], []⟩

def c10res : String → Option String := fun _ => none

theorem C10_witness :
    webhook_posted c10res (get_unprocessed_ads c10st 100) = false
    ∧ send_to_webhook c10res (.status 200) (get_unprocessed_ads c10st 100) = (false, [])
    ∧ (cycle_step c10res (.status 200) c10st 100 9).processed = c10st.processed :=
  C10_all_resolution_failed c10res (.status 200) c10st 100 9 (by decide) (fun _ _ => rfl)

end MetaAdsNotifier
